import Mathlib

/-!
# `wunderctl node` — lifecycle of the WunderGraph node command

A shallow embedding of `cli/commands/node.go`: the option builder, the loading of the generated
configuration, `StartWunderGraphNode`, and the two cobra commands `node start` and `node url`.

Conventions of the embedding

* A Go `error` is `Option GoError`: `none` is `nil`, `some msg` a non-nil error with that message.
* A Go pointer result that may be `nil` is an `Option`.
* A Go `func()` value is a transformer of the mutable `State` the closures of this file can reach
  (the signal context, the log, standard output); a `func()` that may be `nil` is an `Option`.
* `int` and `time.Duration` are 64-bit two's complement integers, modelled as `Int` with explicit
  wrap-around.
* Package-level variables, constants and collaborators that `node.go` uses but that are declared
  elsewhere are the fields of `Env`.
-/

namespace commands

/-! ## Data model -/

/-- A non-nil Go `error`, identified by its message. -/
abbrev GoError := String

/-- The bytes of a file, as returned by `os.ReadFile`. -/
abbrev Bytes := List UInt8

/-- The protobuf message `wgpb.WunderGraphConfiguration` that `json.Unmarshal` fills. `node.go`
reads none of its fields; it only hands the message to `node.CreateConfig`. -/
structure WunderGraphConfiguration where
  doc : String
deriving DecidableEq, Repr

/-- The part `config.Api.Options` of the node configuration. -/
structure ApiOptions where
  PublicNodeUrl : String
deriving DecidableEq, Repr

/-- The part `config.Api` of the node configuration. -/
structure ApiDefinition where
  Options : ApiOptions
deriving DecidableEq, Repr

/-- The configuration `node.WunderNodeConfig`; `node.go` reads `Api.Options.PublicNodeUrl`. -/
structure WunderNodeConfig where
  Api : ApiDefinition
deriving DecidableEq, Repr

/-- The node handle `*node.Node`; `node.go` reads `n.WundergraphDir`. -/
structure Node where
  WundergraphDir : String
deriving DecidableEq, Repr

/-- Severity of a line written through the zap logger `log`. -/
inductive Level where
  | Info
  | Error
  | Fatal
deriving DecidableEq, Repr

/-- One line written through the zap logger `log`: level, message and the structured fields. -/
structure LogEntry where
  level : Level
  msg : String
  fields : List (String × String)
deriving DecidableEq, Repr

/-- The value `ctx.Err()` of a cancelled context. The signal context has the background context
as parent and no deadline, so `context.Canceled` is the only error it can carry. -/
inductive CtxErr where
  | Canceled
deriving DecidableEq, Repr

/-- The state of a context: `err` is what `ctx.Err()` returns (`none` is `nil`), and
`notifying` tells whether package `signal` relays the observed signals (`os.Interrupt`,
`SIGTERM`) to the context, which holds from `signal.NotifyContext` until `stop` is called. A
context that `signal.NotifyContext` did not make never relays signals. -/
structure cancelCtx where
  err : Option CtxErr
  notifying : Bool := false
deriving DecidableEq, Repr

/-- The mutable state that the closures of `node.go` can reach. -/
structure State where
  sigCtx : cancelCtx
  logs : List LogEntry
  stdout : List String
deriving DecidableEq, Repr

/-- A non-nil Go `func()` value. -/
abbrev Func := State → State

/-- The package-level variables, constants and collaborators used by `node.go` and declared
outside of it. -/
structure Env where
  /-- File name constant `configJsonFilename`. -/
  configJsonFilename : String
  /-- Variable `gracefulTimeout` (seconds). -/
  gracefulTimeout : Int
  /-- Flag variable `shutdownAfterIdle` (seconds, a Go `int`). -/
  shutdownAfterIdle : Int
  /-- Variable `healthCheckTimeout` (seconds). -/
  healthCheckTimeout : Int
  /-- Flag variable `disableForceHttpsRedirects`. -/
  disableForceHttpsRedirects : Bool
  /-- Flag variable `enableIntrospection`. -/
  enableIntrospection : Bool
  /-- Flag `rootFlags.DebugMode`. -/
  DebugMode : Bool
  /-- Flag `rootFlags.PrettyLogs`. -/
  PrettyLogs : Bool
  /-- Result of `files.FindWunderGraphDir(_wunderGraphDirConfig)`. -/
  FindWunderGraphDir : Except GoError String
  /-- Library function `path.Join`. -/
  pathJoin : List String → String
  /-- Helper `files.FileExists`. -/
  FileExists : String → Bool
  /-- Library function `os.ReadFile`. -/
  ReadFile : String → Except GoError Bytes
  /-- Library function `json.Unmarshal` into a zero `wgpb.WunderGraphConfiguration`. -/
  Unmarshal : Bytes → Except GoError WunderGraphConfiguration
  /-- Collaborator `node.CreateConfig`, returning the Go pair `(*WunderNodeConfig, error)`. -/
  CreateConfig : WunderGraphConfiguration → Option WunderNodeConfig × Option GoError

/-! ## Logging -/

/-- Append one line to the log; nothing else of the state changes. -/
def logLine (level : Level) (msg : String) (fields : List (String × String)) (st : State) :
    State :=
  { st with logs := st.logs ++ [{ level := level, msg := msg, fields := fields }] }

/-- The call `log.Info(msg)`. -/
def logInfo (msg : String) (st : State) : State :=
  logLine Level.Info msg [] st

/-- The call `log.Error(msg, fields...)`. -/
def logError (msg : String) (fields : List (String × String)) (st : State) : State :=
  logLine Level.Error msg fields st

/-! ## Configuration loading -/

/-- `NewWunderGraphNode`: locate the project directory and build the node handle around it. -/
def NewWunderGraphNode (env : Env) : Except GoError Node :=
  match env.FindWunderGraphDir with
  | Except.error err => Except.error err
  | Except.ok wunderGraphDir => Except.ok { WundergraphDir := wunderGraphDir }

/-- `CreateWunderGraphNodeConfiguration`: read the generated configuration artifact of the node's
project directory and build the node configuration from it. The result is the Go pair
`(*node.WunderNodeConfig, error)` together with the state after the log calls. -/
def CreateWunderGraphNodeConfiguration (env : Env) (n : Node) (st : State) :
    (Option WunderNodeConfig × Option GoError) × State :=
  let configFile := env.pathJoin [n.WundergraphDir, "generated", env.configJsonFilename]
  if !env.FileExists configFile then
    ((none, some ("could not find configuration file: " ++ configFile)), st)
  else
    match env.ReadFile configFile with
    | Except.error err =>
      ((none, some err),
        logError "Failed to read file" [("filePath", configFile), ("error", err)] st)
    | Except.ok data =>
      if data.length = 0 then
        ((none, some "config file is empty"),
          logError "Config file is empty" [("filePath", configFile)] st)
      else
        match env.Unmarshal data with
        | Except.error err =>
          ((none, some "failed to unmarshal config file"),
            logError "Failed to unmarshal" [("filePath", configFile), ("error", err)] st)
        | Except.ok graphConfig =>
          match env.CreateConfig graphConfig with
          | (_, some err) =>
            ((none, some err),
              logError "Failed to create config" [("filePath", configFile), ("error", err)] st)
          | (wunderNodeConfig, none) => ((wunderNodeConfig, none), st)

/-- The four-way outcome of a configuration load as the specification words it, as a function of
the artifact's bytes: empty, malformed, construction failed, or the constructed configuration. -/
def specLoadFromBytes (unmarshal : Bytes → Except GoError WunderGraphConfiguration)
    (createConfig : WunderGraphConfiguration → Option WunderNodeConfig × Option GoError)
    (data : Bytes) : Option WunderNodeConfig × Option GoError :=
  if data = [] then (none, some "config file is empty")
  else
    match unmarshal data with
    | Except.error _ => (none, some "failed to unmarshal config file")
    | Except.ok graphConfig =>
      match (createConfig graphConfig).2 with
      | some err => (none, some err)
      | none => ((createConfig graphConfig).1, none)

/-- The path of the generated configuration artifact of a node's project directory. -/
def configFileOf (env : Env) (n : Node) : String :=
  env.pathJoin [n.WundergraphDir, "generated", env.configJsonFilename]

/-! ## Option builder -/

/-- The private record `options` of start-up options. -/
structure options where
  hooksServerHealthCheck : Bool
  idleHandler : Option Func
  prettyLogging : Bool

/-- The zero value of `options`, as declared by `var options options`. -/
def options.zero : options :=
  { hooksServerHealthCheck := false, idleHandler := none, prettyLogging := false }

/-- The Go type `Option`, `func(options *options)`: an update of the options record. -/
abbrev StartOption := options → options

/-- `WithHooksServerHealthCheck()`: sets `hooksServerHealthCheck` to true. -/
def WithHooksServerHealthCheck : StartOption :=
  fun options => { options with hooksServerHealthCheck := true }

/-- `WithIdleHandler(idleHandler)`: stores the handler, which may be a nil `func()`. -/
def WithIdleHandler (idleHandler : Option Func) : StartOption :=
  fun options => { options with idleHandler := idleHandler }

/-- The loop `for i := range opts { opts[i](&options) }` run on the record `options`. -/
def applyOpts : List StartOption → options → options
  | [], options => options
  | opt :: rest, options => applyOpts rest (opt options)

/-- A call of one of the two option constructors of `node.go`. -/
inductive OptionCall where
  | HooksServerHealthCheck
  | IdleHandler (idleHandler : Option Func)

/-- The `Option` value a constructor call returns. -/
def OptionCall.toOption : OptionCall → StartOption
  | OptionCall.HooksServerHealthCheck => WithHooksServerHealthCheck
  | OptionCall.IdleHandler h => WithIdleHandler h

/-- The handler a constructor call carries, if it is a `WithIdleHandler` call. -/
def OptionCall.carried : OptionCall → Option (Option Func)
  | OptionCall.HooksServerHealthCheck => none
  | OptionCall.IdleHandler h => some h

/-- Whether a constructor call is `WithHooksServerHealthCheck()`. -/
def OptionCall.isHooks : OptionCall → Bool
  | OptionCall.HooksServerHealthCheck => true
  | OptionCall.IdleHandler _ => false

/-- Last-write-wins as the specification words it: the handler carried by the last
`WithIdleHandler` of the list, nil if the list has none. -/
def specIdleHandler (calls : List OptionCall) : Option Func :=
  (calls.reverse.findSome? OptionCall.carried).getD none

/-! ## Signal bridge -/

/-- The cancel function of a cancellable context: the first call records `context.Canceled`,
every later call returns without doing anything. -/
def cancelCtx.cancel (c : cancelCtx) : cancelCtx :=
  if c.err.isSome then c else { c with err := some CtxErr.Canceled }

/-- The context returned by `signal.NotifyContext(context.Background(), ...)`: not cancelled, and
the observed signals are relayed to it. -/
def NotifyContext : cancelCtx :=
  { err := none, notifying := true }

/-- The `stop` function returned by `signal.NotifyContext`: it cancels the signal context and
calls `signal.Stop`, after which the observed signals are no longer relayed and have their
default action again. -/
def stop : Func :=
  fun st => { st with sigCtx := { st.sigCtx.cancel with notifying := false } }

/-- An observed signal is relayed to the signal context: the context is cancelled. The relay
stays in place, so that a further signal is taken in the same way. -/
def signalArrives (st : State) : State :=
  { st with sigCtx := st.sigCtx.cancel }

/-! ## Starting the node -/

/-- Wrap an integer to the range of a signed 64-bit integer. -/
def wrapInt64 (x : Int) : Int :=
  (x + 2 ^ 63) % 2 ^ 64 - 2 ^ 63

/-- The constant `time.Second`, in nanoseconds. -/
def Second : Int := 1000000000

/-- The expression `time.Duration(seconds) * time.Second`, in nanoseconds. -/
def secondsToDuration (seconds : Int) : Int :=
  wrapInt64 (wrapInt64 seconds * Second)

/-- An idle callback as handed to the runtime: `none` as result is the run-time panic of calling
a nil function. -/
abbrev Callback := State → Option State

/-- The options of package `node` that `StartWunderGraphNode` passes to the runtime. -/
inductive NodeOption where
  | WithStaticWunderNodeConfig (config : Option WunderNodeConfig)
  | WithDebugMode (enable : Bool)
  | WithForceHttpsRedirects (enable : Bool)
  | WithIntrospection (enable : Bool)
  | WithPrettyLogging (enable : Bool)
  | WithIdleTimeout (idleTimeout : Int) (idleHandler : Callback)
  | WithHooksServerHealthCheck (timeout : Int)

/-- The closure that `StartWunderGraphNode` registers as idle callback: it logs and then calls
`options.idleHandler`. -/
def idleCallback (options : options) : Callback :=
  fun st =>
    let st1 := logInfo "shutting down due to idle timeout" st
    match options.idleHandler with
    | none => none
    | some idleHandler => some (idleHandler st1)

/-- A trigger of shutdown that the environment raises while `node start` runs: a `SIGTERM` sent
to the process (`os.Interrupt` is handled alike), or an expiry of the runtime's idle timer. -/
inductive Event where
  | signal
  | idleTimeout
deriving DecidableEq, Repr

/-- The choices of the environment in one execution of `node start`: the triggers that occur, in
order, between `signal.NotifyContext` and the reading of `sigCtx.Err()` after `g.Wait()`, and the
value the runtime's blocking run returns when it is called. -/
structure Schedule where
  events : List Event
  runResult : Option GoError
deriving DecidableEq, Repr

/-- A call into a collaborator, recorded in execution order. -/
inductive Call where
  | NotifyContext
  | errgroupWithContext
  | Go
  | StartBlocking (nodeOpts : List NodeOption)
  | HandleGracefulShutdown (gracefulTimeout : Int)
  | Wait

/-- The state of an execution together with the record of the collaborator calls made so far. -/
structure World where
  st : State
  trace : List Call

/-- Modelled from the spec: the blocking run `n.StartBlocking` of the server runtime (package
`node`, outside this file). The call is recorded with the options it received and returns the
value the schedule fixes for it. -/
def StartBlocking (sched : Schedule) (nodeOpts : List NodeOption) (w : World) :
    Option GoError × World :=
  (sched.runResult, { w with trace := w.trace ++ [Call.StartBlocking nodeOpts] })

/-- The option list `nodeOpts` that `StartWunderGraphNode` builds for the runtime. -/
def buildNodeOpts (env : Env) (options : options) (config : Option WunderNodeConfig) :
    List NodeOption :=
  let nodeOpts := [
    NodeOption.WithStaticWunderNodeConfig config,
    NodeOption.WithDebugMode env.DebugMode,
    NodeOption.WithForceHttpsRedirects (!env.disableForceHttpsRedirects),
    NodeOption.WithIntrospection env.enableIntrospection,
    NodeOption.WithPrettyLogging env.PrettyLogs]
  let nodeOpts :=
    if env.shutdownAfterIdle > 0 then
      nodeOpts ++ [NodeOption.WithIdleTimeout (secondsToDuration env.shutdownAfterIdle)
        (idleCallback options)]
    else nodeOpts
  if options.hooksServerHealthCheck then
    nodeOpts ++ [NodeOption.WithHooksServerHealthCheck (secondsToDuration env.healthCheckTimeout)]
  else nodeOpts

/-- `StartWunderGraphNode`: apply the options, load the configuration, build the runtime options
and run the node until it stops. -/
def StartWunderGraphNode (env : Env) (sched : Schedule) (n : Node) (opts : List StartOption)
    (w : World) : Option GoError × World :=
  let options := applyOpts opts options.zero
  match CreateWunderGraphNodeConfiguration env n w.st with
  | ((_, some err), st1) => (some err, { w with st := st1 })
  | ((config, none), st1) =>
    let nodeOpts := buildNodeOpts env options config
    match StartBlocking sched nodeOpts { w with st := st1 } with
    | (some err, w2) => (some err, w2)
    | (none, w2) => (none, w2)

/-! ## The commands -/

/-- The idle callback that a runtime option list registers, if it holds a `WithIdleTimeout`
option (the last one, should there be several). -/
def idleCallbackOf : List NodeOption → Option Callback
  | [] => none
  | opt :: rest =>
    match idleCallbackOf rest with
    | some callback => some callback
    | none =>
      match opt with
      | NodeOption.WithIdleTimeout _ callback => some callback
      | _ => none

/-- The idle callback registered with a running runtime, read off the recorded calls: the one of
the option list that `StartBlocking` received, `none` when the runtime was never started. -/
def registeredIdle : List Call → Option Callback
  | [] => none
  | call :: rest =>
    match registeredIdle rest with
    | some callback => some callback
    | none =>
      match call with
      | Call.StartBlocking nodeOpts => idleCallbackOf nodeOpts
      | _ => none

/-- What a trigger does to the running process: it goes on in a new state, it panics on the call
of a nil function, or it is killed by the default action of a signal that is not relayed. -/
inductive Fired where
  | next (st : State)
  | panicked
  | killed (st : State)
deriving DecidableEq

/-- One trigger takes effect. A signal cancels the signal context while signals are relayed to
it, and kills the process by its default action once `stop` has ended the relay. An expiry of
the idle timer makes the runtime call the registered idle callback, if one is registered. -/
def fire (callback : Option Callback) : Event → State → Fired
  | Event.signal, st =>
    if st.sigCtx.notifying then Fired.next (signalArrives st) else Fired.killed st
  | Event.idleTimeout, st =>
    match callback with
    | none => Fired.next st
    | some cb =>
      match cb st with
      | none => Fired.panicked
      | some st1 => Fired.next st1

/-- The triggers of a schedule take effect one after the other, until the process is gone. -/
def deliver (callback : Option Callback) : List Event → State → Fired
  | [], st => Fired.next st
  | e :: rest, st =>
    match fire callback e st with
    | Fired.next st1 => deliver callback rest st1
    | Fired.panicked => Fired.panicked
    | Fired.killed st1 => Fired.killed st1

/-- How a command ends: the exit status of the process, the final state and the collaborator
calls it made. -/
structure Outcome where
  exitCode : Nat
  st : State
  trace : List Call

/-- The call `log.Fatal(msg, zap.Error(err))`: the line is logged and the process exits with
status 1. -/
def logFatal (msg : String) (err : GoError) (w : World) : Outcome :=
  { exitCode := 1, st := logLine Level.Fatal msg [("error", err)] w.st, trace := w.trace }

/-- A run-time panic that nothing recovers: the Go runtime ends the process with status 2. -/
def crash (w : World) : Outcome :=
  { exitCode := 2, st := w.st, trace := w.trace }

/-- The default action of `SIGTERM` ends the process; the status it is reported with is 143,
that is 128 plus the number of the signal. -/
def killedBySignal (w : World) : Outcome :=
  { exitCode := 143, st := w.st, trace := w.trace }

/-- The state in which a command starts: nothing logged, nothing printed, and the given context. -/
def initialState (ctx : cancelCtx) : State :=
  { sigCtx := ctx, logs := [], stdout := [] }

/-- The end of `nodeStartCmd`'s `Run`, once `g.Wait()` has returned `err`: the process exits
with status 1 through `log.Fatal` when `sigCtx.Err() == nil && err != nil`; otherwise `Run`
returns, the deferred `stop` runs and the process exits with status 0. -/
def exitDecision (err : Option GoError) (w : World) : Outcome :=
  match w.st.sigCtx.err, err with
  | none, some err => logFatal "WunderGraph process shutdown: %w" err w
  | _, _ => { exitCode := 0, st := stop w.st, trace := w.trace }

/-- The `Run` function of `nodeStartCmd` (`node start`) under a schedule of the environment.
The supervised task runs `StartWunderGraphNode` with the single option `WithIdleHandler(stop)`.
The triggers of the schedule take effect before `sigCtx.Err()` is read: their order relative to
the return of the task does not matter, since the value the task returns is fixed by the schedule
and the decision reads nothing but that value and the cancellation state. A signal that kills
the process ends the execution before the decision. -/
def nodeStartCmd_Run (env : Env) (sched : Schedule) : Outcome :=
  let w0 : World :=
    { st := initialState NotifyContext, trace := [Call.NotifyContext, Call.errgroupWithContext] }
  match NewWunderGraphNode env with
  | Except.error err => logFatal "Could not create node: %w" err w0
  | Except.ok n =>
    match StartWunderGraphNode env sched n [WithIdleHandler (some stop)]
        { w0 with trace := w0.trace ++ [Call.Go] } with
    | (err, w1) =>
      let w2 : World :=
        { w1 with trace := w1.trace ++ [Call.HandleGracefulShutdown env.gracefulTimeout] }
      match deliver (registeredIdle w2.trace) sched.events w2.st with
      | Fired.panicked => crash w2
      | Fired.killed st3 => killedBySignal { st := st3, trace := w2.trace }
      | Fired.next st3 =>
        exitDecision err { st := st3, trace := w2.trace ++ [Call.Wait] }

/-- The value that the supervised task of `node start` returns to the task group, which
`g.Wait()` hands on. -/
def taskError (env : Env) (sched : Schedule) (n : Node) : Option GoError :=
  (StartWunderGraphNode env sched n [WithIdleHandler (some stop)]
    { st := initialState NotifyContext,
      trace := [Call.NotifyContext, Call.errgroupWithContext, Call.Go] }).1

/-- The call `fmt.Println(s)`: the string and a newline are written to standard output. -/
def Println (s : String) (st : State) : State :=
  { st with stdout := st.stdout ++ [s ++ "\n"] }

/-- The `Run` function of `nodeUrlCmd` (`node url`). -/
def nodeUrlCmd_Run (env : Env) : Outcome :=
  let w0 : World := { st := initialState { err := none }, trace := [] }
  match NewWunderGraphNode env with
  | Except.error err => logFatal "Could not create node: %w" err w0
  | Except.ok n =>
    match CreateWunderGraphNodeConfiguration env n w0.st with
    | ((_, some err), st1) =>
      logFatal "Could not create node configuration: %w" err { w0 with st := st1 }
    | ((none, none), st1) => crash { w0 with st := st1 }
    | ((some config, none), st1) =>
      { exitCode := 0, st := Println config.Api.Options.PublicNodeUrl st1, trace := w0.trace }

/-- Whether the runtime's blocking run was called. -/
def startedRuntime : List Call → Bool
  | [] => false
  | Call.StartBlocking _ :: _ => true
  | _ :: rest => startedRuntime rest

/-- Whether a line of level `Fatal` was logged. -/
def hasFatal (st : State) : Bool :=
  st.logs.any (fun entry => entry.level == Level.Fatal)

/-- The options record that `node start` hands to `StartWunderGraphNode`: the one built from the
single option `WithIdleHandler(stop)`. -/
def startOptions : options :=
  applyOpts [WithIdleHandler (some stop)] options.zero

/-- Whether, in a sequence of triggers, a signal arrives after an expiry of the idle timer. -/
def signalAfterIdle : List Event → Bool
  | [] => false
  | Event.signal :: rest => signalAfterIdle rest
  | Event.idleTimeout :: rest => rest.contains Event.signal

/-- The idle duration that a runtime option list configures, if it holds a `WithIdleTimeout`
option (the last one, should there be several). -/
def idleTimeoutOf : List NodeOption → Option Int
  | [] => none
  | opt :: rest =>
    match idleTimeoutOf rest with
    | some d => some d
    | none =>
      match opt with
      | NodeOption.WithIdleTimeout d _ => some d
      | _ => none

/-! ## Sample environments -/

/-- A project whose generated configuration loads: the artifact holds the two bytes of an empty
JSON object and the node is served at port 9991. -/
def sampleEnv : Env :=
  { configJsonFilename := "wundergraph.config.json"
    gracefulTimeout := 10
    shutdownAfterIdle := 0
    healthCheckTimeout := 10
    disableForceHttpsRedirects := false
    enableIntrospection := false
    DebugMode := false
    PrettyLogs := false
    FindWunderGraphDir := Except.ok ".wundergraph"
    pathJoin := String.intercalate "/"
    FileExists := fun _ => true
    ReadFile := fun _ => Except.ok [123, 125]
    Unmarshal := fun _ => Except.ok { doc := "" }
    CreateConfig := fun _ =>
      (some { Api := { Options := { PublicNodeUrl := "http://localhost:9991" } } }, none) }

/-- The sample project started with `--shutdown-after-idle 5`. -/
def idleEnv : Env :=
  { sampleEnv with shutdownAfterIdle := 5 }

/-- The sample project without its generated configuration artifact. -/
def missingEnv : Env :=
  { sampleEnv with FileExists := fun _ => false }

/-- The sample project started with `--shutdown-after-idle 9223372037`. -/
def hugeIdleEnv : Env :=
  { sampleEnv with shutdownAfterIdle := 9223372037 }

end commands

namespace commands

/-! ## Configuration loading: theorems -/

/-- The artifact is missing: the "could not find" error, nothing logged. -/
theorem load_missing (env : Env) (n : Node) (st : State)
    (hexists : env.FileExists (configFileOf env n) = false) :
    CreateWunderGraphNodeConfiguration env n st
      = ((none, some ("could not find configuration file: " ++ configFileOf env n)), st) := by
  unfold configFileOf at *
  unfold CreateWunderGraphNodeConfiguration
  simp [hexists]

/-- The artifact cannot be read: the error of `os.ReadFile`. -/
theorem load_unreadable (env : Env) (n : Node) (st : State) (e : GoError)
    (hexists : env.FileExists (configFileOf env n) = true)
    (hread : env.ReadFile (configFileOf env n) = Except.error e) :
    CreateWunderGraphNodeConfiguration env n st
      = ((none, some e), logError "Failed to read file"
          [("filePath", configFileOf env n), ("error", e)] st) := by
  unfold configFileOf at *
  unfold CreateWunderGraphNodeConfiguration
  simp [hexists, hread]

/-- The artifact has no bytes: the "config file is empty" error. -/
theorem load_empty (env : Env) (n : Node) (st : State) (data : Bytes)
    (hexists : env.FileExists (configFileOf env n) = true)
    (hread : env.ReadFile (configFileOf env n) = Except.ok data) (hd : data = []) :
    CreateWunderGraphNodeConfiguration env n st
      = ((none, some "config file is empty"),
          logError "Config file is empty" [("filePath", configFileOf env n)] st) := by
  unfold configFileOf at *
  unfold CreateWunderGraphNodeConfiguration
  simp [hexists, hread, hd]

/-- The bytes do not decode: the "failed to unmarshal config file" error. -/
theorem load_malformed (env : Env) (n : Node) (st : State) (data : Bytes) (e : GoError)
    (hexists : env.FileExists (configFileOf env n) = true)
    (hread : env.ReadFile (configFileOf env n) = Except.ok data) (hd : data ≠ [])
    (hu : env.Unmarshal data = Except.error e) :
    CreateWunderGraphNodeConfiguration env n st
      = ((none, some "failed to unmarshal config file"),
          logError "Failed to unmarshal" [("filePath", configFileOf env n), ("error", e)] st) := by
  unfold configFileOf at *
  unfold CreateWunderGraphNodeConfiguration
  simp [hexists, hread, hd, hu]

/-- The bytes decode but `node.CreateConfig` fails: its error. -/
theorem load_rejected (env : Env) (n : Node) (st : State) (data : Bytes)
    (g : WunderGraphConfiguration) (c : Option WunderNodeConfig) (e : GoError)
    (hexists : env.FileExists (configFileOf env n) = true)
    (hread : env.ReadFile (configFileOf env n) = Except.ok data) (hd : data ≠ [])
    (hu : env.Unmarshal data = Except.ok g) (hc : env.CreateConfig g = (c, some e)) :
    CreateWunderGraphNodeConfiguration env n st
      = ((none, some e),
          logError "Failed to create config" [("filePath", configFileOf env n), ("error", e)]
            st) := by
  unfold configFileOf at *
  unfold CreateWunderGraphNodeConfiguration
  simp [hexists, hread, hd, hu, hc]

/-- The bytes decode and `node.CreateConfig` succeeds: its configuration, nothing logged. -/
theorem load_constructed (env : Env) (n : Node) (st : State) (data : Bytes)
    (g : WunderGraphConfiguration) (c : Option WunderNodeConfig)
    (hexists : env.FileExists (configFileOf env n) = true)
    (hread : env.ReadFile (configFileOf env n) = Except.ok data) (hd : data ≠ [])
    (hu : env.Unmarshal data = Except.ok g) (hc : env.CreateConfig g = (c, none)) :
    CreateWunderGraphNodeConfiguration env n st = ((c, none), st) := by
  unfold configFileOf at *
  unfold CreateWunderGraphNodeConfiguration
  simp [hexists, hread, hd, hu, hc]

/-- C3: for an artifact that exists and is readable, the result of
`CreateWunderGraphNodeConfiguration` is the four-way function of the artifact's bytes (given the
decoder and the constructor): no bytes give "config file is empty", bytes that fail to decode
give "failed to unmarshal config file", bytes that decode but fail construction give the
construction error, and bytes that decode and construct give the constructed configuration with
a nil error; the four cases exclude one another and cover every byte string. -/
theorem load_is_function_of_bytes (env : Env) (n : Node) (st : State) (data : Bytes)
    (hexists : env.FileExists (configFileOf env n) = true)
    (hread : env.ReadFile (configFileOf env n) = Except.ok data) :
    (CreateWunderGraphNodeConfiguration env n st).1
        = specLoadFromBytes env.Unmarshal env.CreateConfig data ∧
    (data = [] → (CreateWunderGraphNodeConfiguration env n st).1
        = (none, some "config file is empty")) ∧
    (data ≠ [] → ∀ e, env.Unmarshal data = Except.error e →
      (CreateWunderGraphNodeConfiguration env n st).1
        = (none, some "failed to unmarshal config file")) ∧
    (data ≠ [] → ∀ g e, env.Unmarshal data = Except.ok g → (env.CreateConfig g).2 = some e →
      (CreateWunderGraphNodeConfiguration env n st).1 = (none, some e)) ∧
    (data ≠ [] → ∀ g, env.Unmarshal data = Except.ok g → (env.CreateConfig g).2 = none →
      (CreateWunderGraphNodeConfiguration env n st).1 = ((env.CreateConfig g).1, none)) := by
  refine ⟨?_, ?_, ?_, ?_, ?_⟩
  · unfold specLoadFromBytes
    by_cases hd : data = []
    · simp [load_empty env n st data hexists hread hd, hd]
    · cases hu : env.Unmarshal data with
      | error e => simp [load_malformed env n st data e hexists hread hd hu, hd]
      | ok g =>
        rcases hc : env.CreateConfig g with ⟨c, _ | e⟩
        · simp [load_constructed env n st data g c hexists hread hd hu hc, hd, hc]
        · simp [load_rejected env n st data g c e hexists hread hd hu hc, hd, hc]
  · intro hd
    rw [load_empty env n st data hexists hread hd]
  · intro hd e hu
    rw [load_malformed env n st data e hexists hread hd hu]
  · intro hd g e hu hc
    rw [load_rejected env n st data g (env.CreateConfig g).1 e hexists hread hd hu
      (by rw [← hc])]
  · intro hd g hu hc
    rw [load_constructed env n st data g (env.CreateConfig g).1 hexists hread hd hu
      (by rw [← hc])]

/-- Witness of C3 on the sample project, whose artifact holds two bytes. -/
theorem load_is_function_of_bytes_witness :
    sampleEnv.FileExists (configFileOf sampleEnv ⟨".wundergraph"⟩) = true ∧
    sampleEnv.ReadFile (configFileOf sampleEnv ⟨".wundergraph"⟩) = Except.ok [123, 125] ∧
    (CreateWunderGraphNodeConfiguration sampleEnv ⟨".wundergraph"⟩ (initialState NotifyContext)).1
      = specLoadFromBytes sampleEnv.Unmarshal sampleEnv.CreateConfig [123, 125] :=
  ⟨rfl, rfl,
    (load_is_function_of_bytes sampleEnv ⟨".wundergraph"⟩ (initialState NotifyContext) [123, 125]
      rfl rfl).1⟩

/-- C4: whatever the artifact (missing, unreadable, empty, malformed, failing construction or
valid), `CreateWunderGraphNodeConfiguration` returns no half-built configuration: with a non-nil
error the configuration is nil, and with a nil error the configuration is the one that
`node.CreateConfig` produced, together with a nil error, for the decoded bytes of the artifact;
it is non-nil because `node.CreateConfig` returns a non-nil configuration with a nil error. -/
theorem load_error_or_constructed (env : Env) (n : Node) (st : State) :
    ((CreateWunderGraphNodeConfiguration env n st).1.2 ≠ none →
      (CreateWunderGraphNodeConfiguration env n st).1.1 = none) ∧
    ((CreateWunderGraphNodeConfiguration env n st).1.2 = none →
      ∃ data g, env.FileExists (configFileOf env n) = true ∧
        env.ReadFile (configFileOf env n) = Except.ok data ∧ data ≠ [] ∧
        env.Unmarshal data = Except.ok g ∧
        env.CreateConfig g = ((CreateWunderGraphNodeConfiguration env n st).1.1, none)) ∧
    ((CreateWunderGraphNodeConfiguration env n st).1.2 = none →
      (∀ g, (env.CreateConfig g).2 = none → (env.CreateConfig g).1 ≠ none) →
      (CreateWunderGraphNodeConfiguration env n st).1.1 ≠ none) := by
  have key : ((CreateWunderGraphNodeConfiguration env n st).1.2 ≠ none →
      (CreateWunderGraphNodeConfiguration env n st).1.1 = none) ∧
    ((CreateWunderGraphNodeConfiguration env n st).1.2 = none →
      ∃ data g, env.FileExists (configFileOf env n) = true ∧
        env.ReadFile (configFileOf env n) = Except.ok data ∧ data ≠ [] ∧
        env.Unmarshal data = Except.ok g ∧
        env.CreateConfig g = ((CreateWunderGraphNodeConfiguration env n st).1.1, none)) := by
    cases hex : env.FileExists (configFileOf env n) with
    | false => simp [load_missing env n st hex]
    | true =>
      cases hrd : env.ReadFile (configFileOf env n) with
      | error e => simp [load_unreadable env n st e hex hrd]
      | ok data =>
        by_cases hd : data = []
        · simp [load_empty env n st data hex hrd hd]
        · cases hu : env.Unmarshal data with
          | error e => simp [load_malformed env n st data e hex hrd hd hu]
          | ok g =>
            rcases hc : env.CreateConfig g with ⟨c, _ | e⟩
            · simp [load_constructed env n st data g c hex hrd hd hu hc, hd, hu, hc]
            · simp [load_rejected env n st data g c e hex hrd hd hu hc]
  refine ⟨key.1, key.2, ?_⟩
  intro hnil hcreate
  obtain ⟨data, g, -, -, -, -, hc⟩ := key.2 hnil
  have h := hcreate g (by rw [hc])
  rw [hc] at h
  exact h

/-- Witness of C4 on the sample project: the load succeeds and returns a configuration. -/
theorem load_error_or_constructed_witness :
    (CreateWunderGraphNodeConfiguration sampleEnv ⟨".wundergraph"⟩
        (initialState NotifyContext)).1.2 = none ∧
    (CreateWunderGraphNodeConfiguration sampleEnv ⟨".wundergraph"⟩
        (initialState NotifyContext)).1.1 ≠ none :=
  ⟨rfl, (load_error_or_constructed sampleEnv ⟨".wundergraph"⟩ (initialState NotifyContext)).2.2
    rfl (fun _ _ => by simp [sampleEnv])⟩

/-! ## Option builder: theorems -/

/-- The option loop is the left-to-right fold of the options over the starting record. -/
theorem applyOpts_eq_foldl (opts : List StartOption) (o : options) :
    applyOpts opts o = opts.foldl (fun acc opt => opt acc) o := by
  induction opts generalizing o with
  | nil => rfl
  | cons opt rest ih => simp [applyOpts, ih]

/-- Running the option loop over two lists in a row. -/
theorem applyOpts_append (a b : List StartOption) (o : options) :
    applyOpts (a ++ b) o = applyOpts b (applyOpts a o) := by
  induction a generalizing o with
  | nil => rfl
  | cons opt rest ih => simp [applyOpts, ih]

/-- The handler after the loop is the one carried by the last `WithIdleHandler` call, and the
starting one when the list has no such call. -/
theorem idleHandler_applyOpts (calls : List OptionCall) (o : options) :
    (applyOpts (calls.map OptionCall.toOption) o).idleHandler
      = (calls.reverse.findSome? OptionCall.carried).getD o.idleHandler := by
  induction calls generalizing o with
  | nil => rfl
  | cons c rest ih =>
    simp only [List.map_cons, applyOpts, ih, List.reverse_cons, List.findSome?_append]
    cases hrest : rest.reverse.findSome? OptionCall.carried with
    | some h => simp
    | none =>
      cases c with
      | HooksServerHealthCheck =>
        simp [OptionCall.carried, OptionCall.toOption, WithHooksServerHealthCheck]
      | IdleHandler h =>
        simp [OptionCall.carried, OptionCall.toOption, WithIdleHandler]

/-- The health-check toggle after the loop is set exactly when it was set at the start or the
list holds a `WithHooksServerHealthCheck` call. -/
theorem hooks_applyOpts (calls : List OptionCall) (o : options) :
    (applyOpts (calls.map OptionCall.toOption) o).hooksServerHealthCheck = true ↔
      (o.hooksServerHealthCheck = true ∨ OptionCall.HooksServerHealthCheck ∈ calls) := by
  induction calls generalizing o with
  | nil => simp [applyOpts]
  | cons c rest ih =>
    simp only [List.map_cons, applyOpts, ih, List.mem_cons]
    cases c with
    | HooksServerHealthCheck =>
      simp [OptionCall.toOption, WithHooksServerHealthCheck]
    | IdleHandler h =>
      simp [OptionCall.toOption, WithIdleHandler]

/-- No option constructor of `node.go` touches `prettyLogging`. -/
theorem prettyLogging_applyOpts (calls : List OptionCall) (o : options) :
    (applyOpts (calls.map OptionCall.toOption) o).prettyLogging = o.prettyLogging := by
  induction calls generalizing o with
  | nil => rfl
  | cons c rest ih =>
    simp only [List.map_cons, applyOpts, ih]
    cases c <;> rfl

/-- C5: for every list of options the record that `StartWunderGraphNode` builds is the
left-to-right fold of the options over the zero record; for options made by the constructors of
`node.go` the last write wins per field: `idleHandler` is the handler of the last
`WithIdleHandler` (nil if there is none), `hooksServerHealthCheck` is true exactly when a
`WithHooksServerHealthCheck` is in the list, `prettyLogging` keeps its zero value, and each
constructor leaves the fields it does not name unchanged. -/
theorem options_last_write_wins (calls : List OptionCall) :
    (∀ opts : List StartOption,
      applyOpts opts options.zero = opts.foldl (fun acc opt => opt acc) options.zero) ∧
    (applyOpts (calls.map OptionCall.toOption) options.zero).idleHandler
      = specIdleHandler calls ∧
    ((applyOpts (calls.map OptionCall.toOption) options.zero).hooksServerHealthCheck = true ↔
      OptionCall.HooksServerHealthCheck ∈ calls) ∧
    (applyOpts (calls.map OptionCall.toOption) options.zero).prettyLogging = false ∧
    (∀ o : options, (WithHooksServerHealthCheck o).idleHandler = o.idleHandler ∧
      (WithHooksServerHealthCheck o).prettyLogging = o.prettyLogging ∧
      (WithHooksServerHealthCheck o).hooksServerHealthCheck = true) ∧
    (∀ (h : Option Func) (o : options),
      (WithIdleHandler h o).hooksServerHealthCheck = o.hooksServerHealthCheck ∧
      (WithIdleHandler h o).prettyLogging = o.prettyLogging ∧
      (WithIdleHandler h o).idleHandler = h) := by
  refine ⟨fun opts => applyOpts_eq_foldl opts _, ?_, ?_, ?_, ?_, ?_⟩
  · rw [idleHandler_applyOpts]
    rfl
  · rw [hooks_applyOpts]
    simp [options.zero]
  · rw [prettyLogging_applyOpts]
    rfl
  · intro o
    exact ⟨rfl, rfl, rfl⟩
  · intro h o
    exact ⟨rfl, rfl, rfl⟩

/-- Options without a `WithIdleHandler` call leave the handler as it was. -/
theorem idleHandler_of_no_idle (calls : List OptionCall) (o : options)
    (hno : ∀ c ∈ calls, OptionCall.carried c = none) :
    (applyOpts (calls.map OptionCall.toOption) o).idleHandler = o.idleHandler := by
  induction calls generalizing o with
  | nil => rfl
  | cons c rest ih =>
    simp only [List.map_cons, applyOpts]
    rw [ih _ (fun d hd => hno d (List.mem_cons_of_mem _ hd))]
    cases c with
    | HooksServerHealthCheck => rfl
    | IdleHandler h =>
      have := hno (OptionCall.IdleHandler h) (List.mem_cons_self _ _)
      simp [OptionCall.carried] at this

/-- A non-nil handler after the loop comes from the last `WithIdleHandler` call of the list, or,
when the list has none, from the starting record. -/
theorem idleHandler_some_split (calls : List OptionCall) (o : options) (h : Func)
    (hsome : (applyOpts (calls.map OptionCall.toOption) o).idleHandler = some h) :
    (∃ pre post, calls = pre ++ OptionCall.IdleHandler (some h) :: post ∧
      ∀ c ∈ post, OptionCall.carried c = none) ∨
    ((∀ c ∈ calls, OptionCall.carried c = none) ∧ o.idleHandler = some h) := by
  induction calls generalizing o with
  | nil =>
    right
    exact ⟨by simp, hsome⟩
  | cons c rest ih =>
    simp only [List.map_cons, applyOpts] at hsome
    rcases ih _ hsome with ⟨pre, post, hsplit, hpost⟩ | ⟨hno, hstart⟩
    · left
      exact ⟨c :: pre, post, by simp [hsplit], hpost⟩
    · cases c with
      | HooksServerHealthCheck =>
        right
        refine ⟨?_, hstart⟩
        intro d hd
        rcases List.mem_cons.mp hd with rfl | hd
        · rfl
        · exact hno d hd
      | IdleHandler x =>
        left
        have hx : x = some h := hstart
        exact ⟨[], rest, by simp [hx], hno⟩

/-! ## Idle callback: theorems -/

/-- The runtime option list registers an idle callback exactly when `shutdownAfterIdle > 0`, and
then it is the closure over the options record. -/
theorem idleCallbackOf_buildNodeOpts (env : Env) (o : options)
    (config : Option WunderNodeConfig) :
    idleCallbackOf (buildNodeOpts env o config)
      = if 0 < env.shutdownAfterIdle then some (idleCallback o) else none := by
  unfold buildNodeOpts
  by_cases hidle : 0 < env.shutdownAfterIdle <;> cases hh : o.hooksServerHealthCheck <;>
    simp [hidle, idleCallbackOf]

/-- The runtime option list configures an idle duration exactly when `shutdownAfterIdle > 0`, and
then it is the value of `time.Duration(shutdownAfterIdle) * time.Second`. -/
theorem idleTimeoutOf_buildNodeOpts (env : Env) (o : options)
    (config : Option WunderNodeConfig) :
    idleTimeoutOf (buildNodeOpts env o config)
      = if 0 < env.shutdownAfterIdle then some (secondsToDuration env.shutdownAfterIdle)
        else none := by
  unfold buildNodeOpts
  by_cases hidle : 0 < env.shutdownAfterIdle <;> cases hh : o.hooksServerHealthCheck <;>
    simp [hidle, idleTimeoutOf]

/-- Up to 9223372036 seconds the conversion to nanoseconds is exact. -/
theorem secondsToDuration_exact (seconds : Int) (hpos : 0 < seconds)
    (hmax : seconds ≤ 9223372036) :
    secondsToDuration seconds = seconds * 1000000000 := by
  unfold secondsToDuration wrapInt64 Second
  norm_num
  omega

/-- C10: the idle callback that `StartWunderGraphNode` registers when `shutdownAfterIdle > 0` is
the closure over the options record; fired, it writes its one Info line to the log (which leaves
the signal context and standard output alone) and then calls exactly the handler stored in
`options.idleHandler`. It is safe, that is, it does not call a nil function, exactly when the
option list holds a `WithIdleHandler` whose last occurrence carries a non-nil handler; for a list
without any `WithIdleHandler` firing it calls a nil function. -/
theorem idle_callback_calls_handler (calls : List OptionCall) (env : Env)
    (config : Option WunderNodeConfig) (st : State) (hidle : 0 < env.shutdownAfterIdle) :
    idleCallbackOf (buildNodeOpts env (applyOpts (calls.map OptionCall.toOption) options.zero)
        config)
      = some (idleCallback (applyOpts (calls.map OptionCall.toOption) options.zero)) ∧
    (∀ h, specIdleHandler calls = some h →
      idleCallback (applyOpts (calls.map OptionCall.toOption) options.zero) st
        = some (h (logInfo "shutting down due to idle timeout" st))) ∧
    ((logInfo "shutting down due to idle timeout" st).sigCtx = st.sigCtx ∧
      (logInfo "shutting down due to idle timeout" st).stdout = st.stdout ∧
      (logInfo "shutting down due to idle timeout" st).logs
        = st.logs ++ [⟨Level.Info, "shutting down due to idle timeout", []⟩]) ∧
    ((idleCallback (applyOpts (calls.map OptionCall.toOption) options.zero) st).isSome = true ↔
      ∃ pre h post, calls = pre ++ OptionCall.IdleHandler (some h) :: post ∧
        ∀ c ∈ post, OptionCall.carried c = none) ∧
    ((∀ c ∈ calls, OptionCall.carried c = none) →
      idleCallback (applyOpts (calls.map OptionCall.toOption) options.zero) st = none) := by
  refine ⟨?_, ?_, ⟨rfl, rfl, rfl⟩, ?_, ?_⟩
  · rw [idleCallbackOf_buildNodeOpts]
    simp [hidle]
  · intro h hspec
    have hidleH : (applyOpts (calls.map OptionCall.toOption) options.zero).idleHandler
        = some h := by
      rw [idleHandler_applyOpts]
      exact hspec
    simp [idleCallback, hidleH]
  · constructor
    · intro hsafe
      cases hH : (applyOpts (calls.map OptionCall.toOption) options.zero).idleHandler with
      | none => simp [idleCallback, hH] at hsafe
      | some h =>
        rcases idleHandler_some_split calls options.zero h hH with
          ⟨pre, post, hsplit, hpost⟩ | ⟨-, hzero⟩
        · exact ⟨pre, h, post, hsplit, hpost⟩
        · simp [options.zero] at hzero
    · rintro ⟨pre, h, post, hsplit, hpost⟩
      have hH : (applyOpts (calls.map OptionCall.toOption) options.zero).idleHandler
          = some h := by
        rw [hsplit, List.map_append, applyOpts_append, List.map_cons, applyOpts,
          idleHandler_of_no_idle post _ hpost]
        rfl
      simp [idleCallback, hH]
  · intro hno
    have hH : (applyOpts (calls.map OptionCall.toOption) options.zero).idleHandler = none := by
      rw [idleHandler_of_no_idle calls _ hno]
      rfl
    simp [idleCallback, hH]

/-- Witness of C10: `node start` run with `--shutdown-after-idle 5` passes the single option
`WithIdleHandler(stop)`, and its idle callback is safe. -/
theorem idle_callback_calls_handler_witness :
    0 < idleEnv.shutdownAfterIdle ∧
    (idleCallback (applyOpts ([OptionCall.IdleHandler (some stop)].map OptionCall.toOption)
      options.zero) (initialState NotifyContext)).isSome = true :=
  ⟨by decide,
    (idle_callback_calls_handler [OptionCall.IdleHandler (some stop)] idleEnv none
      (initialState NotifyContext) (by decide)).2.2.2.1.mpr
      ⟨[], stop, [], rfl, by simp⟩⟩

/-- C8: with `--shutdown-after-idle 9223372037` the option list handed to the runtime holds an
idle-timeout option whose duration is -9223372036709551616 nanoseconds, the wrapped 64-bit
product, and not the 9223372037000000000 nanoseconds that 9223372037 seconds are. -/
theorem idle_duration_wraps :
    idleTimeoutOf (buildNodeOpts hugeIdleEnv startOptions none)
      = some (-9223372036709551616) ∧
    hugeIdleEnv.shutdownAfterIdle * Second = 9223372037000000000 ∧
    0 < hugeIdleEnv.shutdownAfterIdle ∧ hugeIdleEnv.shutdownAfterIdle < 2 ^ 63 := by
  decide

/-! ## Signal bridge: theorems -/

/-- After a cancel the context is cancelled. -/
theorem cancel_err (c : cancelCtx) : c.cancel.err = some CtxErr.Canceled := by
  unfold cancelCtx.cancel
  cases h : c.err with
  | none => simp
  | some e =>
    cases e
    simp [h]

/-- A cancel leaves the relay of signals as it is. -/
theorem cancel_notifying (c : cancelCtx) : c.cancel.notifying = c.notifying := by
  unfold cancelCtx.cancel
  cases h : c.err <;> simp

/-- The idle callback of `node start` never fails: it logs and calls `stop`. -/
theorem fire_idle_start (st : State) :
    fire (some (idleCallback startOptions)) Event.idleTimeout st
      = Fired.next (stop (logInfo "shutting down due to idle timeout" st)) :=
  rfl

/-- After an expiry of the idle timer, a signal follows exactly when the rest holds one. -/
theorem signalAfterIdle_idle (rest : List Event) :
    signalAfterIdle (Event.idleTimeout :: rest) = true ↔ Event.signal ∈ rest := by
  simp [signalAfterIdle]

/-- A signal after an expiry of the idle timer is a signal of the sequence. -/
theorem signal_mem_of_signalAfterIdle (evs : List Event) (h : signalAfterIdle evs = true) :
    Event.signal ∈ evs := by
  induction evs with
  | nil => simp [signalAfterIdle] at h
  | cons e rest ih =>
    cases e with
    | signal => exact List.mem_cons_self _ _
    | idleTimeout => exact List.mem_cons_of_mem _ ((signalAfterIdle_idle rest).mp h)

/-- A sequence of triggers under the idle callback of `node start`, or under none, in which no
signal meets a context that has stopped relaying: the process goes on, nothing is printed, no
Fatal line is logged, and the signal context is left not cancelled exactly when it was not
cancelled before, no signal arrived and no idle expiry met a registered callback. -/
theorem deliver_alive (callback : Option Callback)
    (hcb : callback = none ∨ callback = some (idleCallback startOptions)) (evs : List Event)
    (st : State)
    (h : (st.sigCtx.notifying = true ∧ (callback = none ∨ signalAfterIdle evs = false)) ∨
      Event.signal ∉ evs) :
    ∃ st2, deliver callback evs st = Fired.next st2 ∧ st2.stdout = st.stdout ∧
      hasFatal st2 = hasFatal st ∧
      (st2.sigCtx.err = none ↔
        (st.sigCtx.err = none ∧ Event.signal ∉ evs ∧
          (Event.idleTimeout ∈ evs → callback = none))) := by
  induction evs generalizing st with
  | nil => exact ⟨st, rfl, rfl, rfl, by simp⟩
  | cons e rest ih =>
    cases e with
    | signal =>
      have hl : st.sigCtx.notifying = true ∧
          (callback = none ∨ signalAfterIdle rest = false) := by
        rcases h with h | h
        · exact h
        · exact absurd (List.mem_cons_self _ _) h
      have hfire : fire callback Event.signal st = Fired.next (signalArrives st) := by
        simp [fire, hl.1]
      have hnot : (signalArrives st).sigCtx.notifying = true := by
        show st.sigCtx.cancel.notifying = true
        rw [cancel_notifying]
        exact hl.1
      obtain ⟨st2, hdel, hout, hfatal, hiff⟩ := ih (signalArrives st) (Or.inl ⟨hnot, hl.2⟩)
      refine ⟨st2, by simp [deliver, hfire, hdel], hout, hfatal, ?_⟩
      have hc : (signalArrives st).sigCtx.err = some CtxErr.Canceled := cancel_err _
      rw [hiff, hc]
      simp
    | idleTimeout =>
      rcases hcb with rfl | rfl
      · have h2 : (st.sigCtx.notifying = true ∧
            ((none : Option Callback) = none ∨ signalAfterIdle rest = false)) ∨
            Event.signal ∉ rest := by
          rcases h with h | h
          · exact Or.inl ⟨h.1, Or.inl rfl⟩
          · exact Or.inr (fun hm => h (List.mem_cons_of_mem _ hm))
        obtain ⟨st2, hdel, hout, hfatal, hiff⟩ := ih st h2
        refine ⟨st2, by simp [deliver, fire, hdel], hout, hfatal, ?_⟩
        rw [hiff]
        simp
      · have h2 : Event.signal ∉ rest := by
          rcases h with h | h
          · rcases h.2 with h3 | h3
            · simp at h3
            · intro hm
              rw [(signalAfterIdle_idle rest).mpr hm] at h3
              cases h3
          · exact fun hm => h (List.mem_cons_of_mem _ hm)
        obtain ⟨st2, hdel, hout, hfatal, hiff⟩ :=
          ih (stop (logInfo "shutting down due to idle timeout" st)) (Or.inr h2)
        refine ⟨st2, by simp only [deliver, fire_idle_start, hdel], by rw [hout]; rfl, ?_, ?_⟩
        · rw [hfatal]
          simp [hasFatal, stop, logInfo, logLine]
        · have hc : (stop (logInfo "shutting down due to idle timeout" st)).sigCtx.err
              = some CtxErr.Canceled := cancel_err _
          rw [hiff, hc]
          simp

/-- A sequence of triggers under the idle callback of `node start` in which a signal arrives
when the context has stopped relaying, or after an idle expiry: the signal kills the process;
until then nothing is printed and no Fatal line is logged. -/
theorem deliver_killed (evs : List Event) (st : State)
    (h : (st.sigCtx.notifying = false ∧ Event.signal ∈ evs) ∨
      (st.sigCtx.notifying = true ∧ signalAfterIdle evs = true)) :
    ∃ st2, deliver (some (idleCallback startOptions)) evs st = Fired.killed st2 ∧
      st2.stdout = st.stdout ∧ hasFatal st2 = hasFatal st := by
  induction evs generalizing st with
  | nil =>
    rcases h with h | h
    · simp at h
    · simp [signalAfterIdle] at h
  | cons e rest ih =>
    cases e with
    | signal =>
      rcases h with h | h
      · exact ⟨st, by simp [deliver, fire, h.1], rfl, rfl⟩
      · have hnot : (signalArrives st).sigCtx.notifying = true := by
          show st.sigCtx.cancel.notifying = true
          rw [cancel_notifying]
          exact h.1
        obtain ⟨st2, hdel, hout, hfatal⟩ :=
          ih (signalArrives st) (Or.inr ⟨hnot, by simpa [signalAfterIdle] using h.2⟩)
        exact ⟨st2, by simp [deliver, fire, h.1, hdel], hout, hfatal⟩
    | idleTimeout =>
      have hmem : Event.signal ∈ rest := by
        rcases h with h | h
        · rcases List.mem_cons.mp h.2 with h3 | h3
          · cases h3
          · exact h3
        · exact (signalAfterIdle_idle rest).mp h.2
      obtain ⟨st2, hdel, hout, hfatal⟩ :=
        ih (stop (logInfo "shutting down due to idle timeout" st)) (Or.inl ⟨rfl, hmem⟩)
      refine ⟨st2, by simp only [deliver, fire_idle_start, hdel], by rw [hout]; rfl, ?_⟩
      rw [hfatal]
      simp [hasFatal, stop, logInfo, logLine]

/-! ## `node start`: theorems -/

/-- Loading the configuration only appends Error lines to the log. -/
theorem load_state (env : Env) (n : Node) (st : State) :
    (CreateWunderGraphNodeConfiguration env n st).2.sigCtx = st.sigCtx ∧
    (CreateWunderGraphNodeConfiguration env n st).2.stdout = st.stdout ∧
    hasFatal (CreateWunderGraphNodeConfiguration env n st).2 = hasFatal st := by
  cases hex : env.FileExists (configFileOf env n) with
  | false => simp [load_missing env n st hex]
  | true =>
    cases hrd : env.ReadFile (configFileOf env n) with
    | error e => simp [load_unreadable env n st e hex hrd, logError, logLine, hasFatal]
    | ok data =>
      by_cases hd : data = []
      · simp [load_empty env n st data hex hrd hd, logError, logLine, hasFatal]
      · cases hu : env.Unmarshal data with
        | error e =>
          simp [load_malformed env n st data e hex hrd hd hu, logError, logLine, hasFatal]
        | ok g =>
          rcases hc : env.CreateConfig g with ⟨c, _ | e⟩
          · simp [load_constructed env n st data g c hex hrd hd hu hc]
          · simp [load_rejected env n st data g c e hex hrd hd hu hc, logError, logLine,
              hasFatal]

/-- The exit decision with a cancelled signal context: status 0, no Fatal line added. -/
theorem exitDecision_cancelled (err : Option GoError) (w : World)
    (hc : w.st.sigCtx.err ≠ none) :
    (exitDecision err w).exitCode = 0 ∧ hasFatal (exitDecision err w).st = hasFatal w.st ∧
    (exitDecision err w).st.stdout = w.st.stdout ∧ (exitDecision err w).trace = w.trace := by
  unfold exitDecision
  cases h : w.st.sigCtx.err with
  | none => exact absurd h hc
  | some e => simp [stop, hasFatal]

/-- The exit decision with a nil error: status 0, no Fatal line added. -/
theorem exitDecision_nil (w : World) :
    (exitDecision none w).exitCode = 0 ∧ hasFatal (exitDecision none w).st = hasFatal w.st ∧
    (exitDecision none w).trace = w.trace := by
  unfold exitDecision
  cases h : w.st.sigCtx.err <;> simp [stop, hasFatal]

/-- The exit decision with a non-nil error and a signal context that is not cancelled: the Fatal
line is logged and the status is 1. -/
theorem exitDecision_fatal (e : GoError) (w : World) (hc : w.st.sigCtx.err = none) :
    (exitDecision (some e) w).exitCode = 1 ∧ hasFatal (exitDecision (some e) w).st = true ∧
    (exitDecision (some e) w).trace = w.trace := by
  unfold exitDecision
  simp [hc, logFatal, logLine, hasFatal]

/-- The exit decision keeps the record of the calls. -/
theorem exitDecision_trace (err : Option GoError) (w : World) :
    (exitDecision err w).trace = w.trace := by
  unfold exitDecision
  cases h : w.st.sigCtx.err <;> cases err <;> simp [logFatal]

/-- `StartWunderGraphNode` when the configuration fails to load: the error is returned and the
runtime is not started. -/
theorem start_load_failed (env : Env) (sched : Schedule) (n : Node) (opts : List StartOption)
    (w : World) (c : Option WunderNodeConfig) (e : GoError) (st1 : State)
    (hC : CreateWunderGraphNodeConfiguration env n w.st = ((c, some e), st1)) :
    StartWunderGraphNode env sched n opts w = (some e, { st := st1, trace := w.trace }) := by
  unfold StartWunderGraphNode
  simp [hC]

/-- `StartWunderGraphNode` when the configuration loads: the runtime is started with the built
option list and its result is returned. -/
theorem start_load_ok (env : Env) (sched : Schedule) (n : Node) (opts : List StartOption)
    (w : World) (c : Option WunderNodeConfig) (st1 : State)
    (hC : CreateWunderGraphNodeConfiguration env n w.st = ((c, none), st1)) :
    StartWunderGraphNode env sched n opts w
      = (sched.runResult, { st := st1, trace := w.trace ++
          [Call.StartBlocking (buildNodeOpts env (applyOpts opts options.zero) c)] }) := by
  unfold StartWunderGraphNode
  simp only [hC, StartBlocking]
  cases sched.runResult <;> rfl

theorem registeredIdle_started (nodeOpts : List NodeOption) (t : Int) :
    registeredIdle [Call.NotifyContext, Call.errgroupWithContext, Call.Go,
      Call.StartBlocking nodeOpts, Call.HandleGracefulShutdown t] = idleCallbackOf nodeOpts := by
  simp only [registeredIdle]
  cases idleCallbackOf nodeOpts <;> rfl

/-- The shape of every execution of `node start` once the node is created: the triggers of the
schedule take effect under the registered idle callback, on the state that the configuration
load leaves, and the exit decision is taken on the error of the supervised task unless the
process is gone before. -/
theorem run_after_task (env : Env) (sched : Schedule) (n : Node)
    (hn : NewWunderGraphNode env = Except.ok n) :
    ∃ cb tr,
      (cb = none ∨ cb = some (idleCallback startOptions)) ∧
      (cb = none ↔ ¬ (0 < env.shutdownAfterIdle ∧
        (CreateWunderGraphNodeConfiguration env n (initialState NotifyContext)).1.2 = none)) ∧
      (startedRuntime tr = true ↔
        (CreateWunderGraphNodeConfiguration env n (initialState NotifyContext)).1.2 = none) ∧
      (startedRuntime (tr ++ [Call.Wait]) = true ↔
        (CreateWunderGraphNodeConfiguration env n (initialState NotifyContext)).1.2 = none) ∧
      taskError env sched n =
        (match (CreateWunderGraphNodeConfiguration env n (initialState NotifyContext)).1.2 with
          | some e => some e
          | none => sched.runResult) ∧
      nodeStartCmd_Run env sched =
        (match deliver cb sched.events
            (CreateWunderGraphNodeConfiguration env n (initialState NotifyContext)).2 with
          | Fired.panicked => crash
              ⟨(CreateWunderGraphNodeConfiguration env n (initialState NotifyContext)).2, tr⟩
          | Fired.killed st3 => killedBySignal ⟨st3, tr⟩
          | Fired.next st3 => exitDecision (taskError env sched n) ⟨st3, tr ++ [Call.Wait]⟩) := by
  rcases hC : CreateWunderGraphNodeConfiguration env n (initialState NotifyContext) with
    ⟨⟨c, _ | e⟩, st1⟩
  · have hT := start_load_ok env sched n [WithIdleHandler (some stop)]
      ⟨initialState NotifyContext, [Call.NotifyContext, Call.errgroupWithContext, Call.Go]⟩
      c st1 hC
    simp only [List.cons_append, List.nil_append] at hT
    have hcb : idleCallbackOf (buildNodeOpts env startOptions c) = none ∨
        idleCallbackOf (buildNodeOpts env startOptions c) = some (idleCallback startOptions) := by
      rw [idleCallbackOf_buildNodeOpts]
      by_cases h : 0 < env.shutdownAfterIdle <;> simp [h]
    refine ⟨idleCallbackOf (buildNodeOpts env startOptions c),
      [Call.NotifyContext, Call.errgroupWithContext, Call.Go,
        Call.StartBlocking (buildNodeOpts env startOptions c),
        Call.HandleGracefulShutdown env.gracefulTimeout],
      hcb, ?_, ?_, ?_, ?_, ?_⟩
    · rw [idleCallbackOf_buildNodeOpts]
      by_cases h : 0 < env.shutdownAfterIdle <;> simp [h]
    · simp [startedRuntime]
    · simp [startedRuntime]
    · simp only [taskError, hT]
    · simp only [nodeStartCmd_Run, hn, taskError, List.cons_append, List.nil_append, hT,
        registeredIdle_started]
      rfl
  · have hT := start_load_failed env sched n [WithIdleHandler (some stop)]
      ⟨initialState NotifyContext, [Call.NotifyContext, Call.errgroupWithContext, Call.Go]⟩
      c e st1 hC
    refine ⟨none,
      [Call.NotifyContext, Call.errgroupWithContext, Call.Go,
        Call.HandleGracefulShutdown env.gracefulTimeout],
      Or.inl rfl, by simp, ?_, ?_, ?_, ?_⟩
    · simp [startedRuntime]
    · simp [startedRuntime]
    · simp only [taskError, hT]
    · simp only [nodeStartCmd_Run, hn, taskError, List.cons_append, List.nil_append, hT]
      rfl

/-- The state that the configuration load of `node start` leaves: the fresh signal context,
nothing printed, no Fatal line. -/
theorem loaded_state (env : Env) (n : Node) :
    (CreateWunderGraphNodeConfiguration env n (initialState NotifyContext)).2.sigCtx.err = none ∧
    (CreateWunderGraphNodeConfiguration env n
      (initialState NotifyContext)).2.sigCtx.notifying = true ∧
    hasFatal (CreateWunderGraphNodeConfiguration env n (initialState NotifyContext)).2
      = false := by
  obtain ⟨hctx, -, hfatal⟩ := load_state env n (initialState NotifyContext)
  rw [hctx, hfatal]
  exact ⟨rfl, rfl, rfl⟩

/-- The exit decision ends the process with status 0 or 1. -/
theorem exitDecision_code (err : Option GoError) (w : World) :
    (exitDecision err w).exitCode = 0 ∨ (exitDecision err w).exitCode = 1 := by
  unfold exitDecision
  cases h : w.st.sigCtx.err <;> cases err <;> simp [logFatal]

/-- C1, counterexample: the sample project started with `--shutdown-after-idle 5`. The first
trigger is a termination signal, which cancels the signal context; then the idle callback fires
and `stop` ends the relay of signals; the second termination signal is not relayed and kills the
process before the exit decision, with status 143 and not 0. -/
theorem signal_after_idle_stop_kills :
    NewWunderGraphNode idleEnv = Except.ok ⟨".wundergraph"⟩ ∧
    deliver (some (idleCallback startOptions)) [Event.signal] (initialState NotifyContext)
      = Fired.next { sigCtx := { err := some CtxErr.Canceled, notifying := true },
                     logs := [], stdout := [] } ∧
    (nodeStartCmd_Run idleEnv
      ⟨[Event.signal, Event.idleTimeout, Event.signal], some "http: Server closed"⟩).exitCode
      = 143 :=
  ⟨rfl, by decide, by decide⟩

/-- C1, amended: in every execution of `node start` in which the node was created and a
termination signal arrives before the exit decision, the `log.Fatal` branch after `g.Wait()` is
not taken, whatever error, nil or not, the task group returns: no Fatal line is logged and the
exit status is not 1. The exit status is 0 when no termination signal arrives after the idle
callback has fired (no idle timeout configured, or the runtime never started, or no signal
follows an idle expiry); then it is a termination signal that cancels the signal context. When a
termination signal arrives after the idle callback has fired, `stop` has ended the relay of
signals and the signal kills the process, with status 143. -/
theorem signal_stop_exit_status (env : Env) (sched : Schedule) (n : Node)
    (hnode : NewWunderGraphNode env = Except.ok n) (hsig : Event.signal ∈ sched.events) :
    hasFatal (nodeStartCmd_Run env sched).st = false ∧
    (nodeStartCmd_Run env sched).exitCode ≠ 1 ∧
    ((env.shutdownAfterIdle ≤ 0 ∨
        (CreateWunderGraphNodeConfiguration env n (initialState NotifyContext)).1.2 ≠ none ∨
        signalAfterIdle sched.events = false) →
      (nodeStartCmd_Run env sched).exitCode = 0) ∧
    ((0 < env.shutdownAfterIdle ∧
        (CreateWunderGraphNodeConfiguration env n (initialState NotifyContext)).1.2 = none ∧
        signalAfterIdle sched.events = true) →
      (nodeStartCmd_Run env sched).exitCode = 143) := by
  obtain ⟨cb, tr, hcb, hcbnone, -, -, -, hrun⟩ := run_after_task env sched n hnode
  obtain ⟨-, hrelay, hnofatal⟩ := loaded_state env n
  by_cases hkill : cb ≠ none ∧ signalAfterIdle sched.events = true
  · have hcbs : cb = some (idleCallback startOptions) := by
      rcases hcb with h | h
      · exact absurd h hkill.1
      · exact h
    subst hcbs
    obtain ⟨st2, hdel, -, hfatal⟩ := deliver_killed sched.events
      (CreateWunderGraphNodeConfiguration env n (initialState NotifyContext)).2
      (Or.inr ⟨hrelay, hkill.2⟩)
    rw [hdel] at hrun
    simp only at hrun
    have hreg := not_not.mp (fun h => hkill.1 (hcbnone.mpr h))
    rw [hrun]
    refine ⟨by rw [← hnofatal, ← hfatal]; rfl, by simp [killedBySignal], ?_, fun _ => rfl⟩
    rintro (h | h | h)
    · exact absurd hreg.1 (not_lt.mpr h)
    · exact absurd hreg.2 h
    · rw [hkill.2] at h
      cases h
  · have halive : cb = none ∨ signalAfterIdle sched.events = false := by
      by_cases hc : cb = none
      · exact Or.inl hc
      · right
        cases hs : signalAfterIdle sched.events with
        | false => rfl
        | true => exact absurd ⟨hc, hs⟩ hkill
    obtain ⟨st3, hdel, -, hfatal, hiff⟩ := deliver_alive cb hcb sched.events
      (CreateWunderGraphNodeConfiguration env n (initialState NotifyContext)).2
      (Or.inl ⟨hrelay, halive⟩)
    rw [hdel] at hrun
    simp only at hrun
    have hcancelled : st3.sigCtx.err ≠ none := fun h => (hiff.mp h).2.1 hsig
    obtain ⟨hexit, hlog, -, -⟩ :=
      exitDecision_cancelled (taskError env sched n) ⟨st3, tr ++ [Call.Wait]⟩ hcancelled
    rw [hrun]
    refine ⟨?_, by rw [hexit]; decide, fun _ => hexit, ?_⟩
    · rw [hlog]
      show hasFatal st3 = false
      rw [hfatal, hnofatal]
    · rintro ⟨hpos, hok, hs⟩
      exfalso
      rcases halive with h | h
      · exact (hcbnone.mp h) ⟨hpos, hok⟩
      · rw [hs] at h
        cases h

/-- Witness of C1, amended: the sample project, a signal while the runtime runs, and a run that
then returns an error. -/
theorem signal_stop_exit_status_witness :
    NewWunderGraphNode sampleEnv = Except.ok ⟨".wundergraph"⟩ ∧
    Event.signal ∈ [Event.signal] ∧
    (nodeStartCmd_Run sampleEnv ⟨[Event.signal], some "http: Server closed"⟩).exitCode = 0 :=
  ⟨rfl, by decide,
    (signal_stop_exit_status sampleEnv ⟨[Event.signal], some "http: Server closed"⟩
      ⟨".wundergraph"⟩ rfl (by decide)).2.2.1 (Or.inl (by decide))⟩

/-- C2, counterexample: the sample project started with `--shutdown-after-idle 5`; no signal
arrives, the idle callback fires, the run call then returns a non-nil error, and the process
exits with status 0. -/
theorem idle_stop_hides_run_error :
    NewWunderGraphNode idleEnv = Except.ok ⟨".wundergraph"⟩ ∧
    Event.signal ∉ [Event.idleTimeout] ∧
    taskError idleEnv ⟨[Event.idleTimeout], some "http: Server closed"⟩ ⟨".wundergraph"⟩
      = some "http: Server closed" ∧
    (nodeStartCmd_Run idleEnv ⟨[Event.idleTimeout], some "http: Server closed"⟩).exitCode
      = 0 :=
  ⟨rfl, by decide, by decide, by decide⟩

/-- C2, amended: in every execution of `node start` in which the node was created, no termination
signal arrives and the supervised run call returns a non-nil error, the exit status is 1, through
the `log.Fatal` branch, provided the idle callback does not fire (no idle expiry, or no idle
timeout configured, or the runtime never started); when the idle callback fires, `stop` cancels
the signal context and the exit status is 0. -/
theorem run_error_exit_status (env : Env) (sched : Schedule) (n : Node)
    (hnode : NewWunderGraphNode env = Except.ok n)
    (hnosig : Event.signal ∉ sched.events) (herr : taskError env sched n ≠ none) :
    ((Event.idleTimeout ∉ sched.events ∨ env.shutdownAfterIdle ≤ 0 ∨
        startedRuntime (nodeStartCmd_Run env sched).trace = false) →
      (nodeStartCmd_Run env sched).exitCode = 1 ∧
        hasFatal (nodeStartCmd_Run env sched).st = true) ∧
    ((Event.idleTimeout ∈ sched.events ∧ 0 < env.shutdownAfterIdle ∧
        startedRuntime (nodeStartCmd_Run env sched).trace = true) →
      (nodeStartCmd_Run env sched).exitCode = 0) := by
  obtain ⟨cb, tr, hcb, hcbnone, hstarted0, hstarted, -, hrun⟩ :=
    run_after_task env sched n hnode
  obtain ⟨hfresh, -, -⟩ := loaded_state env n
  obtain ⟨st3, hdel, -, -, hiff⟩ := deliver_alive cb hcb sched.events
    (CreateWunderGraphNodeConfiguration env n (initialState NotifyContext)).2 (Or.inr hnosig)
  rw [hdel] at hrun
  simp only at hrun
  obtain ⟨e, he⟩ : ∃ e, taskError env sched n = some e := by
    cases h : taskError env sched n with
    | none => exact absurd h herr
    | some e => exact ⟨e, rfl⟩
  have htrace : (nodeStartCmd_Run env sched).trace = tr ++ [Call.Wait] := by
    rw [hrun, exitDecision_trace]
  rw [htrace, hrun, he]
  constructor
  · intro hquiet
    have hnone : st3.sigCtx.err = none := by
      rw [hiff]
      refine ⟨hfresh, hnosig, ?_⟩
      intro hidle
      rcases hquiet with h | h | h
      · exact absurd hidle h
      · exact hcbnone.mpr (fun hh => absurd hh.1 (not_lt.mpr h))
      · refine hcbnone.mpr (fun hh => ?_)
        have := hstarted.mpr hh.2
        rw [h] at this
        cases this
    exact ⟨(exitDecision_fatal e ⟨st3, tr ++ [Call.Wait]⟩ hnone).1,
      (exitDecision_fatal e ⟨st3, tr ++ [Call.Wait]⟩ hnone).2.1⟩
  · rintro ⟨hidle, hpos, hrt⟩
    have hcancelled : st3.sigCtx.err ≠ none := by
      intro h
      have hcb0 := (hiff.mp h).2.2 hidle
      exact (hcbnone.mp hcb0) ⟨hpos, hstarted.mp hrt⟩
    exact (exitDecision_cancelled (some e) ⟨st3, tr ++ [Call.Wait]⟩ hcancelled).1

/-- Witness of C2, amended: the sample project, no trigger at all, and a run that fails. -/
theorem run_error_exit_status_witness :
    NewWunderGraphNode sampleEnv = Except.ok ⟨".wundergraph"⟩ ∧
    taskError sampleEnv ⟨[], some "listen tcp: address already in use"⟩ ⟨".wundergraph"⟩
      ≠ none ∧
    (nodeStartCmd_Run sampleEnv ⟨[], some "listen tcp: address already in use"⟩).exitCode = 1 :=
  ⟨rfl, by decide,
    ((run_error_exit_status sampleEnv ⟨[], some "listen tcp: address already in use"⟩
      ⟨".wundergraph"⟩ rfl (by decide) (by decide)).1 (Or.inl (by decide))).1⟩

/-- C6, counterexample: the sample project without its generated configuration; the load fails,
a termination signal arrives before the exit decision, and the process exits with status 0. -/
theorem load_failure_with_signal_exits_zero :
    NewWunderGraphNode missingEnv = Except.ok ⟨".wundergraph"⟩ ∧
    (CreateWunderGraphNodeConfiguration missingEnv ⟨".wundergraph"⟩
      (initialState NotifyContext)).1.2 ≠ none ∧
    (nodeStartCmd_Run missingEnv ⟨[Event.signal], none⟩).exitCode = 0 :=
  ⟨rfl, by decide, by decide⟩

/-- C6, amended: in every execution of `node start` in which the node was created and the
configuration fails to load, the runtime's blocking run is never called, whatever the signal
state; the process exits with status 1 when no termination signal has cancelled the signal
context before the exit decision, and with status 0 when one has. -/
theorem load_failure_exit_status (env : Env) (sched : Schedule) (n : Node)
    (hnode : NewWunderGraphNode env = Except.ok n)
    (hload : (CreateWunderGraphNodeConfiguration env n (initialState NotifyContext)).1.2
      ≠ none) :
    startedRuntime (nodeStartCmd_Run env sched).trace = false ∧
    (Event.signal ∉ sched.events → (nodeStartCmd_Run env sched).exitCode = 1) ∧
    (Event.signal ∈ sched.events → (nodeStartCmd_Run env sched).exitCode = 0) := by
  obtain ⟨cb, tr, hcb, hcbnone, hstarted0, hstarted, htask, hrun⟩ :=
    run_after_task env sched n hnode
  obtain ⟨hfresh, hrelay, -⟩ := loaded_state env n
  have hcb0 : cb = none := hcbnone.mpr (fun hh => hload hh.2)
  obtain ⟨st3, hdel, -, -, hiff⟩ := deliver_alive cb hcb sched.events
    (CreateWunderGraphNodeConfiguration env n (initialState NotifyContext)).2
    (Or.inl ⟨hrelay, Or.inl hcb0⟩)
  rw [hdel] at hrun
  simp only at hrun
  obtain ⟨e, he⟩ : ∃ e, (CreateWunderGraphNodeConfiguration env n
      (initialState NotifyContext)).1.2 = some e := by
    cases h : (CreateWunderGraphNodeConfiguration env n (initialState NotifyContext)).1.2 with
    | none => exact absurd h hload
    | some e => exact ⟨e, rfl⟩
  have hte : taskError env sched n = some e := by
    rw [htask, he]
  have hnotstarted : startedRuntime (tr ++ [Call.Wait]) = false := by
    cases h : startedRuntime (tr ++ [Call.Wait]) with
    | false => rfl
    | true => exact absurd (hstarted.mp h) hload
  have htrace : (nodeStartCmd_Run env sched).trace = tr ++ [Call.Wait] := by
    rw [hrun, exitDecision_trace]
  refine ⟨by rw [htrace]; exact hnotstarted, ?_, ?_⟩
  · intro hnosig
    have hnone : st3.sigCtx.err = none := hiff.mpr ⟨hfresh, hnosig, fun _ => hcb0⟩
    rw [hrun, hte]
    exact (exitDecision_fatal e ⟨st3, tr ++ [Call.Wait]⟩ hnone).1
  · intro hsig
    have hcancelled : st3.sigCtx.err ≠ none := fun h => (hiff.mp h).2.1 hsig
    rw [hrun]
    exact (exitDecision_cancelled _ ⟨st3, tr ++ [Call.Wait]⟩ hcancelled).1

/-- Witness of C6, amended: the sample project without its generated configuration and no
signal. -/
theorem load_failure_exit_status_witness :
    NewWunderGraphNode missingEnv = Except.ok ⟨".wundergraph"⟩ ∧
    startedRuntime (nodeStartCmd_Run missingEnv ⟨[], none⟩).trace = false ∧
    (nodeStartCmd_Run missingEnv ⟨[], none⟩).exitCode = 1 :=
  ⟨rfl,
    (load_failure_exit_status missingEnv ⟨[], none⟩ ⟨".wundergraph"⟩ rfl (by decide)).1,
    (load_failure_exit_status missingEnv ⟨[], none⟩ ⟨".wundergraph"⟩ rfl (by decide)).2.1
      (by decide)⟩


/-- C7, counterexample: the sample project started with `--shutdown-after-idle 5`. After the
idle callback has fired the process ends with status 0; a termination signal that arrives after
that firing is not a trigger without effect: `stop` has ended the relay of signals, and the
signal kills the process, with status 143. -/
theorem signal_after_idle_is_not_ignored :
    NewWunderGraphNode idleEnv = Except.ok ⟨".wundergraph"⟩ ∧
    (nodeStartCmd_Run idleEnv ⟨[Event.idleTimeout], none⟩).exitCode = 0 ∧
    (nodeStartCmd_Run idleEnv ⟨[Event.idleTimeout, Event.signal], none⟩).exitCode = 143 :=
  ⟨rfl, by decide, by decide⟩

/-- C7, amended: in every execution of `node start` whose runtime is started with an idle
timeout, for every sequence of signal arrivals and firings of the idle callback and every value
the run call returns: no trigger panics; without a trigger a failed run ends in status 1; the
first trigger cancels the signal context and no later trigger undoes that, so that every
sequence with a trigger in which no signal follows an idle firing ends in status 0 without a
Fatal line, even when the run call fails; and a signal that follows an idle firing, when `stop`
has ended the relay of signals, kills the process, with status 143. -/
theorem trigger_sequence_exit_status (env : Env) (n : Node) (events : List Event)
    (r : Option GoError) (hnode : NewWunderGraphNode env = Except.ok n)
    (hload : (CreateWunderGraphNodeConfiguration env n (initialState NotifyContext)).1.2 = none)
    (hidle : 0 < env.shutdownAfterIdle) :
    (nodeStartCmd_Run env ⟨events, r⟩).exitCode ≠ 2 ∧
    (events = [] → ∀ e, r = some e → (nodeStartCmd_Run env ⟨events, r⟩).exitCode = 1) ∧
    (events ≠ [] → signalAfterIdle events = false →
      (nodeStartCmd_Run env ⟨events, r⟩).exitCode = 0 ∧
        hasFatal (nodeStartCmd_Run env ⟨events, r⟩).st = false) ∧
    (signalAfterIdle events = true → (nodeStartCmd_Run env ⟨events, r⟩).exitCode = 143) := by
  obtain ⟨cb, tr, hcb, hcbnone, -, -, htask, hrun⟩ := run_after_task env ⟨events, r⟩ n hnode
  obtain ⟨hfresh, hrelay, hnofatal⟩ := loaded_state env n
  have hcbs : cb = some (idleCallback startOptions) := by
    rcases hcb with h | h
    · exact absurd ⟨hidle, hload⟩ (hcbnone.mp h)
    · exact h
  subst hcbs
  have hte : taskError env ⟨events, r⟩ n = r := by
    rw [htask, hload]
  cases hs : signalAfterIdle events with
  | true =>
    obtain ⟨st2, hdel, -, -⟩ := deliver_killed events
      (CreateWunderGraphNodeConfiguration env n (initialState NotifyContext)).2
      (Or.inr ⟨hrelay, hs⟩)
    simp only at hdel hrun
    rw [hdel] at hrun
    simp only at hrun
    rw [hrun]
    refine ⟨by simp [killedBySignal], ?_, fun _ h => absurd h (by decide), fun _ => rfl⟩
    intro hnil
    rw [hnil] at hs
    simp [signalAfterIdle] at hs
  | false =>
    obtain ⟨st3, hdel, -, hfatal, hiff⟩ := deliver_alive (some (idleCallback startOptions))
      (Or.inr rfl) events
      (CreateWunderGraphNodeConfiguration env n (initialState NotifyContext)).2
      (Or.inl ⟨hrelay, Or.inr hs⟩)
    simp only at hdel hrun
    rw [hdel] at hrun
    simp only at hrun
    rw [hrun, hte]
    refine ⟨?_, ?_, ?_, fun h => by cases h⟩
    · rcases exitDecision_code r ⟨st3, tr ++ [Call.Wait]⟩ with h | h <;> rw [h] <;> decide
    · intro hnil e he
      have hnone : st3.sigCtx.err = none := by
        rw [hiff, hnil]
        exact ⟨hfresh, by simp, by simp⟩
      rw [he]
      exact (exitDecision_fatal e ⟨st3, tr ++ [Call.Wait]⟩ hnone).1
    · intro hne _
      have hcancelled : st3.sigCtx.err ≠ none := by
        intro h
        obtain ⟨-, hnosig, hnoidle⟩ := hiff.mp h
        cases events with
        | nil => exact hne rfl
        | cons e rest =>
          cases e with
          | signal => exact hnosig (List.mem_cons_self _ _)
          | idleTimeout => simpa using hnoidle (List.mem_cons_self _ _)
      obtain ⟨hexit, hlog, -, -⟩ :=
        exitDecision_cancelled r ⟨st3, tr ++ [Call.Wait]⟩ hcancelled
      refine ⟨hexit, ?_⟩
      rw [hlog]
      show hasFatal st3 = false
      rw [hfatal, hnofatal]

/-- Witness of C7, amended: a signal and then an idle expiry, with a run that fails. -/
theorem trigger_sequence_exit_status_witness :
    NewWunderGraphNode idleEnv = Except.ok ⟨".wundergraph"⟩ ∧
    0 < idleEnv.shutdownAfterIdle ∧
    (nodeStartCmd_Run idleEnv
      ⟨[Event.signal, Event.idleTimeout], some "http: Server closed"⟩).exitCode = 0 :=
  ⟨rfl, by decide,
    ((trigger_sequence_exit_status idleEnv ⟨".wundergraph"⟩ [Event.signal, Event.idleTimeout]
      (some "http: Server closed") rfl rfl (by decide)).2.2.1 (by decide) (by decide)).1⟩

/-! ## `node url`: theorems -/

/-- C9: `node url` makes no call that starts or supervises the runtime (no `StartBlocking`, no
`HandleGracefulShutdown`, no task group); when the node is created and the configuration loads,
standard output receives exactly the configured `PublicNodeUrl` followed by one newline and the
exit status is 0; when node creation or the configuration load fails, nothing is printed to
standard output and the process exits with status 1. -/
theorem url_prints_public_url (env : Env) :
    (nodeUrlCmd_Run env).trace = [] ∧
    (∀ n config, NewWunderGraphNode env = Except.ok n →
      (CreateWunderGraphNodeConfiguration env n (initialState { err := none })).1
        = (some config, none) →
      (nodeUrlCmd_Run env).st.stdout = [config.Api.Options.PublicNodeUrl ++ "\n"] ∧
        (nodeUrlCmd_Run env).exitCode = 0) ∧
    (∀ e, NewWunderGraphNode env = Except.error e →
      (nodeUrlCmd_Run env).st.stdout = [] ∧ (nodeUrlCmd_Run env).exitCode = 1) ∧
    (∀ n, NewWunderGraphNode env = Except.ok n →
      (CreateWunderGraphNodeConfiguration env n (initialState { err := none })).1.2 ≠ none →
      (nodeUrlCmd_Run env).st.stdout = [] ∧ (nodeUrlCmd_Run env).exitCode = 1) := by
  refine ⟨?_, ?_, ?_, ?_⟩
  · unfold nodeUrlCmd_Run
    cases hn : NewWunderGraphNode env with
    | error e => rfl
    | ok n =>
      rcases hC : CreateWunderGraphNodeConfiguration env n (initialState { err := none }) with
        ⟨⟨_ | c, _ | e⟩, st1⟩ <;> simp [hC, logFatal, crash]
  · intro n config hn hC
    have hout := (load_state env n (initialState { err := none })).2.1
    rcases hC' : CreateWunderGraphNodeConfiguration env n (initialState { err := none }) with
      ⟨⟨c, e⟩, st1⟩
    rw [hC'] at hC hout
    simp only [Prod.mk.injEq] at hC
    obtain ⟨rfl, rfl⟩ := hC
    simp only at hout
    unfold nodeUrlCmd_Run
    simp only [hn, hC']
    simp [Println, hout, initialState]
  · intro e hn
    unfold nodeUrlCmd_Run
    simp [hn, logFatal, logLine, initialState]
  · intro n hn hfail
    have hout := (load_state env n (initialState { err := none })).2.1
    rcases hC' : CreateWunderGraphNodeConfiguration env n (initialState { err := none }) with
      ⟨⟨c, _ | e⟩, st1⟩
    · rw [hC'] at hfail
      exact absurd rfl hfail
    · rw [hC'] at hout
      simp only at hout
      unfold nodeUrlCmd_Run
      simp only [hn, hC']
      simp [logFatal, logLine, hout, initialState]

/-- Witness of C9 on the sample project. -/
theorem url_prints_public_url_witness :
    NewWunderGraphNode sampleEnv = Except.ok ⟨".wundergraph"⟩ ∧
    (nodeUrlCmd_Run sampleEnv).st.stdout = ["http://localhost:9991\n"] :=
  ⟨rfl, ((url_prints_public_url sampleEnv).2.1 ⟨".wundergraph"⟩
    { Api := { Options := { PublicNodeUrl := "http://localhost:9991" } } } rfl rfl).1⟩

end commands
